import Mathlib

/-!
Verification of the KIND disclosure scraper (`kind_crawling.py`).

The development shallowly embeds the decision logic of the scraper:
calendar arithmetic and `split_date_range`, the title classifier
`_analyze_title`, the disclosure-link extractor `_extract_disclosure_link`,
the per-row layout of `extract_page_data`, the pagination guard of
`navigate_to_next_page`, the stop conditions of the `scrape_period_data`
loop, the duplicate removal of `scrape_investment_warning_stocks`, and the
driver teardown paths.  Browser interactions are abstracted as oracle
environments recording the outcome of each element lookup and click.
-/

namespace KindCrawl

/-! ## Calendar model (Python `datetime.date` restricted to what the code uses) -/

/-- A calendar date as the triple `(year, month, day)`.  Python `datetime`
supports years 1..9999; validity is tracked by `Date.valid`. -/
structure Date where
  year : Nat
  month : Nat
  day : Nat
  deriving DecidableEq, Repr

/-- Gregorian leap-year test, as used by `datetime`. -/
def isLeap (y : Nat) : Bool :=
  (y % 4 == 0 && y % 100 != 0) || (y % 400 == 0)

/-- Number of days of month `m` in year `y` (months are 1-based). -/
def daysInMonth (y m : Nat) : Nat :=
  if m = 2 then (if isLeap y then 29 else 28)
  else if m = 4 ∨ m = 6 ∨ m = 9 ∨ m = 11 then 30
  else 31

/-- Sum of the lengths of months `1..m` of year `y`. -/
def monthDaysAcc (y : Nat) : Nat → Nat
  | 0 => 0
  | m + 1 => monthDaysAcc y m + daysInMonth y (m + 1)

/-- Number of days in year `y`. -/
def yearDays (y : Nat) : Nat := monthDaysAcc y 12

/-- Total number of days in years `1..y`. -/
def daysBeforeYear : Nat → Nat
  | 0 => 0
  | y + 1 => daysBeforeYear y + yearDays (y + 1)

/-- Ordinal day number of a date (day 1 = January 1 of year 1).  On valid
dates this is strictly monotone in chronological order, so comparisons of
ordinals model Python `datetime` comparisons. -/
def Date.toOrd (d : Date) : Nat :=
  daysBeforeYear (d.year - 1) + monthDaysAcc d.year (d.month - 1) + d.day

/-- Validity of a date: exactly the triples `datetime` accepts. -/
def Date.valid (d : Date) : Bool :=
  1 ≤ d.year && d.year ≤ 9999 && 1 ≤ d.month && d.month ≤ 12 &&
    1 ≤ d.day && d.day ≤ daysInMonth d.year d.month

/-- Python `current_start.replace(month=current_start.month + max_months)`
respectively the year-rollover branch
`replace(year=current_start.year + 1, month=months_over)` of
`split_date_range`; `none` models the `ValueError` raised by `replace`
when the resulting triple is not a valid date. -/
def addMonthsCode (d : Date) (k : Nat) : Option Date :=
  if d.month + k ≤ 12 then
    let cand := Date.mk d.year (d.month + k) d.day
    if cand.valid then some cand else none
  else
    let cand := Date.mk (d.year + 1) (d.month + k - 12) d.day
    if cand.valid then some cand else none

/-- Python `current_end + timedelta(days=1)`; `none` models the overflow
raised past `datetime.max` (year 9999). -/
def nextDayCode (d : Date) : Option Date :=
  if d.day < daysInMonth d.year d.month then some ⟨d.year, d.month, d.day + 1⟩
  else if d.month < 12 then some ⟨d.year, d.month + 1, 1⟩
  else if d.year < 9999 then some ⟨d.year + 1, 1, 1⟩
  else none

/-- The `while current_start < end_dt` loop of
`KRXKindSeleniumScraper.split_date_range`, with an explicit fuel argument
(the caller passes more fuel than the loop can consume; see
`splitGo_fuel_stable`).  `none` models an exception escaping the loop body,
which the surrounding `try` turns into the unsplit fallback range. -/
def splitGo (endD : Date) (k : Nat) : Nat → Date → Option (List (Date × Date))
  | 0, _ => none
  | fuel + 1, cs =>
    if cs.toOrd < endD.toOrd then
      match addMonthsCode cs k with
      | none => none
      | some ce0 =>
        let ce := if endD.toOrd < ce0.toOrd then endD else ce0
        match nextDayCode ce with
        | none => none
        | some ns =>
          match splitGo endD k fuel ns with
          | none => none
          | some rest => some ((cs, ce) :: rest)
    else some []

/-- Model of `KRXKindSeleniumScraper.split_date_range(start_date, end_date, max_months)`.
Invalid dates model `strptime` failures; both parse failures and date
arithmetic failures fall back to the single unsplit range, as in the
`except` clause of the source. -/
def split_date_range (s e : Date) (maxMonths : Nat) : List (Date × Date) :=
  if s.valid && e.valid then
    match splitGo e maxMonths (e.toOrd + 1) s with
    | some l => l
    | none => [(s, e)]
  else [(s, e)]

/-! ### Ordinal lemmas for the calendar model -/

theorem one_le_daysInMonth (y m : Nat) : 1 ≤ daysInMonth y m := by
  unfold daysInMonth
  split
  · split <;> omega
  · split <;> omega

theorem monthDaysAcc_succ (y m : Nat) :
    monthDaysAcc y (m + 1) = monthDaysAcc y m + daysInMonth y (m + 1) := rfl

theorem monthDaysAcc_pred (y : Nat) {m : Nat} (h : 1 ≤ m) :
    monthDaysAcc y m = monthDaysAcc y (m - 1) + daysInMonth y m := by
  obtain ⟨n, rfl⟩ : ∃ n, m = n + 1 := ⟨m - 1, by omega⟩
  simp [monthDaysAcc_succ]

theorem daysBeforeYear_succ (y : Nat) :
    daysBeforeYear (y + 1) = daysBeforeYear y + yearDays (y + 1) := rfl

theorem daysBeforeYear_pred {y : Nat} (h : 1 ≤ y) :
    daysBeforeYear y = daysBeforeYear (y - 1) + yearDays y := by
  obtain ⟨n, rfl⟩ : ∃ n, y = n + 1 := ⟨y - 1, by omega⟩
  simp [daysBeforeYear_succ]

theorem daysInMonth_twelve (y : Nat) : daysInMonth y 12 = 31 := by
  norm_num [daysInMonth]

theorem yearDays_eq (y : Nat) : yearDays y = monthDaysAcc y 11 + 31 := by
  show monthDaysAcc y 12 = _
  rw [monthDaysAcc_pred y (by omega : (1:Nat) ≤ 12)]
  norm_num [daysInMonth_twelve]

theorem monthDaysAcc_mono (y : Nat) {a b : Nat} (h : a ≤ b) :
    monthDaysAcc y a ≤ monthDaysAcc y b := by
  induction b with
  | zero => simp [Nat.le_zero.mp h]
  | succ b ih =>
    rcases Nat.lt_or_ge a (b + 1) with h' | h'
    · exact le_trans (ih (Nat.lt_succ_iff.mp h')) (Nat.le_add_right _ _)
    · have : a = b + 1 := le_antisymm h h'
      simp [this]

theorem monthDaysAcc_le_yearDays (y : Nat) {m : Nat} (h : m ≤ 12) :
    monthDaysAcc y m ≤ yearDays y :=
  monthDaysAcc_mono y h

theorem Date.valid_iff (d : Date) : d.valid = true ↔
    1 ≤ d.year ∧ d.year ≤ 9999 ∧ 1 ≤ d.month ∧ d.month ≤ 12 ∧
      1 ≤ d.day ∧ d.day ≤ daysInMonth d.year d.month := by
  unfold Date.valid
  simp only [Bool.and_eq_true, decide_eq_true_eq]
  tauto

/-- Successor of a valid date has the successor ordinal. -/
theorem nextDayCode_toOrd {d d' : Date} (hv : d.valid = true)
    (h : nextDayCode d = some d') : d'.toOrd = d.toOrd + 1 ∧ d'.valid = true := by
  obtain ⟨hy1, hy2, hm1, hm2, hd1, hd2⟩ := (Date.valid_iff d).mp hv
  unfold nextDayCode at h
  split at h
  · -- day + 1 within the month
    rename_i hlt
    cases h
    constructor
    · simp only [Date.toOrd]
      omega
    · rw [Date.valid_iff]
      dsimp only
      omega
  · split at h
    · -- first day of the next month
      rename_i hday hmlt
      cases h
      have hde : d.day = daysInMonth d.year d.month := by omega
      constructor
      · simp only [Date.toOrd]
        have h1 : d.month + 1 - 1 = d.month := by omega
        rw [h1, monthDaysAcc_pred d.year hm1]
        omega
      · rw [Date.valid_iff]
        dsimp only
        have := one_le_daysInMonth d.year (d.month + 1)
        omega
    · split at h
      · -- January 1 of the next year
        rename_i hday hmge hylt
        cases h
        have hm12 : d.month = 12 := by omega
        have hde : d.day = daysInMonth d.year d.month := by omega
        have hd31 : d.day = 31 := by
          rw [hde, hm12, daysInMonth_twelve]
        constructor
        · simp only [Date.toOrd]
          have h1 : d.year + 1 - 1 = d.year := by omega
          rw [h1, daysBeforeYear_pred hy1, yearDays_eq]
          have h3 : monthDaysAcc (d.year + 1) (1 - 1) = 0 := rfl
          have h4 : monthDaysAcc d.year (d.month - 1) = monthDaysAcc d.year 11 := by
            rw [hm12]
          rw [h3, h4]
          omega
        · rw [Date.valid_iff]
          dsimp only
          have := one_le_daysInMonth (d.year + 1) 1
          omega
      · exact absurd h (by simp)

/-- Adding months with the source's rollover arithmetic never moves a valid
date backwards. -/
theorem addMonthsCode_toOrd_le {d d' : Date} {k : Nat} (hv : d.valid = true)
    (h : addMonthsCode d k = some d') : d.toOrd ≤ d'.toOrd := by
  obtain ⟨hy1, hy2, hm1, hm2, hd1, hd2⟩ := (Date.valid_iff d).mp hv
  unfold addMonthsCode at h
  simp only at h
  split at h
  · -- same year, month d.month + k
    split at h
    · cases h
      simp only [Date.toOrd]
      have : monthDaysAcc d.year (d.month - 1) ≤ monthDaysAcc d.year (d.month + k - 1) :=
        monthDaysAcc_mono d.year (by omega)
      omega
    · cases h
  · -- next year, month d.month + k - 12
    split at h
    · cases h
      simp only [Date.toOrd]
      have hstep : daysBeforeYear (d.year + 1 - 1)
          = daysBeforeYear (d.year - 1) + yearDays d.year := by
        have h1 : d.year + 1 - 1 = d.year := by omega
        rw [h1, daysBeforeYear_pred hy1]
      rw [hstep]
      have h3 : monthDaysAcc d.year (d.month - 1) ≤ yearDays d.year :=
        monthDaysAcc_le_yearDays d.year (by omega)
      omega
    · cases h

theorem addMonthsCode_valid {d c : Date} {k : Nat}
    (h : addMonthsCode d k = some c) : c.valid = true := by
  unfold addMonthsCode at h
  simp only at h
  split at h <;> split at h <;> rename_i hv <;> cases h
  · exact hv
  · exact hv

theorem Date.one_le_toOrd {d : Date} (hv : d.valid = true) : 1 ≤ d.toOrd := by
  obtain ⟨hy1, hy2, hm1, hm2, hd1, hd2⟩ := (Date.valid_iff d).mp hv
  unfold Date.toOrd
  omega

/-! ### Invariant of the `split_date_range` loop -/

/-- A sub-range spans at most `k` calendar months: its end does not pass the
date obtained by adding `k` months to its start with the source's rollover
arithmetic. -/
def spanOk (k : Nat) (p : Date × Date) : Prop :=
  ∃ c, addMonthsCode p.1 k = some c ∧ p.2.toOrd ≤ c.toOrd

/-- Invariant of the ranges produced by the splitting loop started at
`cs` with overall end `endD`. -/
def GoodList (k : Nat) (endD : Date) : Date → List (Date × Date) → Prop
  | cs, [] => endD.toOrd ≤ cs.toOrd
  | cs, p :: rest =>
      p.1 = cs ∧ p.1.valid = true ∧ p.2.valid = true ∧
      p.1.toOrd ≤ p.2.toOrd ∧ p.2.toOrd ≤ endD.toOrd ∧ cs.toOrd < endD.toOrd ∧
      spanOk k p ∧
      ∃ ns, nextDayCode p.2 = some ns ∧ GoodList k endD ns rest

theorem splitGo_good (k : Nat) (endD : Date) (he : endD.valid = true) :
    ∀ fuel cs l, cs.valid = true → splitGo endD k fuel cs = some l →
      GoodList k endD cs l := by
  intro fuel
  induction fuel with
  | zero => intro cs l hcs h; simp [splitGo] at h
  | succ fuel ih =>
    intro cs l hcs h
    unfold splitGo at h
    split at h
    · rename_i hlt
      cases hadd : addMonthsCode cs k with
      | none => simp only [hadd] at h; exact Option.noConfusion h
      | some ce0 =>
        simp only [hadd] at h
        cases hnext : nextDayCode (if endD.toOrd < ce0.toOrd then endD else ce0) with
        | none => simp only [hnext] at h; exact Option.noConfusion h
        | some ns =>
          simp only [hnext] at h
          cases hrest : splitGo endD k fuel ns with
          | none => simp only [hrest] at h; exact Option.noConfusion h
          | some rest =>
            simp only [hrest, Option.some.injEq] at h
            cases h
            have hce0v : ce0.valid = true := addMonthsCode_valid hadd
            have hcev : (if endD.toOrd < ce0.toOrd then endD else ce0).valid = true := by
              split
              · exact he
              · exact hce0v
            have hnsv : ns.valid = true := (nextDayCode_toOrd hcev hnext).2
            refine ⟨rfl, hcs, hcev, ?_, ?_, hlt, ⟨ce0, hadd, ?_⟩,
              ns, hnext, ih ns rest hnsv hrest⟩
            · split
              · exact le_of_lt hlt
              · exact addMonthsCode_toOrd_le hcs hadd
            · split
              · exact le_refl _
              · rename_i hnc; exact Nat.le_of_not_lt hnc
            · split
              · rename_i hc; exact le_of_lt hc
              · exact le_refl _
    · cases h
      exact by rename_i hge; simpa using Nat.le_of_not_lt hge

/-- With the fuel the wrapper passes, extra fuel never changes the outcome:
the fuel is an artifact of the embedding, not a semantic bound. -/
theorem splitGo_fuel_stable (k : Nat) (endD : Date) (he : endD.valid = true) :
    ∀ n cs, cs.valid = true → endD.toOrd ≤ cs.toOrd + n →
      ∀ m, splitGo endD k (m + (n + 1)) cs = splitGo endD k (n + 1) cs := by
  intro n
  induction n with
  | zero =>
    intro cs hcs hle m
    have hbase : ∀ f, splitGo endD k (f + 1) cs = some [] := by
      intro f
      unfold splitGo
      rw [if_neg (by omega)]
    have hm : m + (0 + 1) = m + 1 := by omega
    rw [hm, hbase m, hbase 0]
  | succ n ih =>
    intro cs hcs hle m
    have hshape : m + (n + 1 + 1) = (m + (n + 1)) + 1 := by omega
    rw [hshape]
    unfold splitGo
    by_cases hlt : cs.toOrd < endD.toOrd
    · rw [if_pos hlt, if_pos hlt]
      cases hadd : addMonthsCode cs k with
      | none => rfl
      | some ce0 =>
        simp only
        cases hnext : nextDayCode (if endD.toOrd < ce0.toOrd then endD else ce0) with
        | none => rfl
        | some ns =>
          simp only
          have hce0v : ce0.valid = true := addMonthsCode_valid hadd
          have hcev : (if endD.toOrd < ce0.toOrd then endD else ce0).valid = true := by
            split
            · exact he
            · exact hce0v
          have hnsv : ns.valid = true := (nextDayCode_toOrd hcev hnext).2
          have hnso : ns.toOrd = (if endD.toOrd < ce0.toOrd then endD else ce0).toOrd + 1 :=
            (nextDayCode_toOrd hcev hnext).1
          have hcslb : cs.toOrd ≤ (if endD.toOrd < ce0.toOrd then endD else ce0).toOrd := by
            split
            · exact le_of_lt hlt
            · exact addMonthsCode_toOrd_le hcs hadd
          have hrec : splitGo endD k (m + (n + 1)) ns = splitGo endD k (n + 1) ns :=
            ih ns hnsv (by omega) m
          rw [hrec]
    · rw [if_neg hlt, if_neg hlt]

/-! ### Derived shape properties of a good range list -/

/-- Contiguity: the end of each sub-range plus one day is the start of the
next sub-range. -/
def Contiguous : List (Date × Date) → Prop
  | [] => True
  | [_] => True
  | p :: q :: rest => nextDayCode p.2 = some q.1 ∧ Contiguous (q :: rest)

/-- Ordinal of the last produced end date (`0` for the empty list). -/
def lastEndOrd : List (Date × Date) → Nat
  | [] => 0
  | [p] => p.2.toOrd
  | _ :: rest => lastEndOrd rest

theorem GoodList.mem_props {k : Nat} {endD : Date} :
    ∀ {cs : Date} {l : List (Date × Date)}, GoodList k endD cs l →
      ∀ p ∈ l, p.1.valid = true ∧ p.2.valid = true ∧
        p.1.toOrd ≤ p.2.toOrd ∧ p.2.toOrd ≤ endD.toOrd ∧ spanOk k p := by
  intro cs l
  induction l generalizing cs with
  | nil => intro _ p hp; cases hp
  | cons a rest ih =>
    intro hg p hp
    obtain ⟨ha1, hav, hbv, hab, hbe, hlt, hspan, ns, hns, hrest⟩ := hg
    rcases List.mem_cons.mp hp with hp | hp
    · cases hp; exact ⟨hav, hbv, hab, hbe, hspan⟩
    · exact ih hrest p hp

theorem GoodList.contiguous {k : Nat} {endD : Date} :
    ∀ {cs : Date} {l : List (Date × Date)}, GoodList k endD cs l → Contiguous l := by
  intro cs l
  induction l generalizing cs with
  | nil => intro _; trivial
  | cons a rest ih =>
    intro hg
    cases rest with
    | nil => trivial
    | cons b rest' =>
      obtain ⟨ha1, hav, hbv, hab, hbe, hlt, hspan, ns, hns, hrest⟩ := hg
      obtain ⟨hb1, hbrest⟩ := hrest
      exact ⟨hb1 ▸ hns, ih ⟨hb1, hbrest⟩⟩

theorem GoodList.starts_lb {k : Nat} {endD : Date} :
    ∀ {cs : Date} {l : List (Date × Date)}, GoodList k endD cs l →
      ∀ p ∈ l, cs.toOrd ≤ p.1.toOrd := by
  intro cs l
  induction l generalizing cs with
  | nil => intro _ p hp; cases hp
  | cons a rest ih =>
    intro hg p hp
    obtain ⟨ha1, hav, hbv, hab, hbe, hlt, hspan, ns, hns, hrest⟩ := hg
    rcases List.mem_cons.mp hp with hp | hp
    · cases hp; exact le_of_eq (by rw [ha1])
    · have h1 : ns.toOrd = a.2.toOrd + 1 := (nextDayCode_toOrd hbv hns).1
      have h2 : ns.toOrd ≤ p.1.toOrd := ih hrest p hp
      have h3 : cs.toOrd ≤ a.1.toOrd := le_of_eq (by rw [ha1])
      omega

theorem GoodList.pairwise_disjoint {k : Nat} {endD : Date} :
    ∀ {cs : Date} {l : List (Date × Date)}, GoodList k endD cs l →
      ∀ p ∈ l, ∀ q ∈ l, p ≠ q →
        p.2.toOrd < q.1.toOrd ∨ q.2.toOrd < p.1.toOrd := by
  intro cs l
  induction l generalizing cs with
  | nil => intro _ p hp; cases hp
  | cons a rest ih =>
    intro hg p hp q hq hne
    obtain ⟨ha1, hav, hbv, hab, hbe, hlt, hspan, ns, hns, hrest⟩ := hg
    have hnso : ns.toOrd = a.2.toOrd + 1 := (nextDayCode_toOrd hbv hns).1
    rcases List.mem_cons.mp hp with hp | hp <;> rcases List.mem_cons.mp hq with hq | hq
    · exact absurd (hp.trans hq.symm) hne
    · cases hp
      have := GoodList.starts_lb hrest q hq
      left; omega
    · cases hq
      have := GoodList.starts_lb hrest p hp
      right; omega
    · exact ih hrest p hp q hq hne

theorem GoodList.covers {k : Nat} {endD : Date} :
    ∀ {cs : Date} {l : List (Date × Date)}, cs.valid = true → GoodList k endD cs l →
      ∀ n, cs.toOrd ≤ n → n ≤ lastEndOrd l →
        ∃ p ∈ l, p.1.toOrd ≤ n ∧ n ≤ p.2.toOrd := by
  intro cs l
  induction l generalizing cs with
  | nil =>
    intro hcs _ n h1 h2
    have := Date.one_le_toOrd hcs
    simp only [lastEndOrd] at h2
    omega
  | cons a rest ih =>
    intro hcs hg n h1 h2
    by_cases hcase : n ≤ a.2.toOrd
    · obtain ⟨ha1, hrest⟩ := hg
      exact ⟨a, List.mem_cons_self _ _, by rw [ha1]; exact h1, hcase⟩
    · cases rest with
      | nil =>
        simp only [lastEndOrd] at h2
        omega
      | cons b rest' =>
        obtain ⟨ha1, hav, hbv, hab, hbe, hlt, hspan, ns, hns, hrest⟩ := hg
        have hnso : ns.toOrd = a.2.toOrd + 1 := (nextDayCode_toOrd hbv hns).1
        have hnsv : ns.valid = true := (nextDayCode_toOrd hbv hns).2
        have h2' : n ≤ lastEndOrd (b :: rest') := h2
        obtain ⟨p, hp, hps⟩ := ih hnsv hrest n (by omega) h2'
        exact ⟨p, List.mem_cons_of_mem _ hp, hps⟩

theorem GoodList.lastEnd_bounds {k : Nat} {endD : Date} :
    ∀ {cs : Date} {l : List (Date × Date)}, GoodList k endD cs l → l ≠ [] →
      endD.toOrd - 1 ≤ lastEndOrd l ∧ lastEndOrd l ≤ endD.toOrd := by
  intro cs l
  induction l generalizing cs with
  | nil => intro _ hne; exact absurd rfl hne
  | cons a rest ih =>
    intro hg _
    cases rest with
    | nil =>
      obtain ⟨ha1, hav, hbv, hab, hbe, hlt, hspan, ns, hns, hrest⟩ := hg
      have hnso : ns.toOrd = a.2.toOrd + 1 := (nextDayCode_toOrd hbv hns).1
      simp only [lastEndOrd]
      have : endD.toOrd ≤ ns.toOrd := hrest
      omega
    | cons b rest' =>
      obtain ⟨ha1, hav, hbv, hab, hbe, hlt, hspan, ns, hns, hrest⟩ := hg
      have := ih hrest (by simp)
      simpa only [lastEndOrd] using this

/-- C1 (counterexample): for the valid pair start = 0001-01-01,
end = 0002-01-03 (367 days apart, more than 365) and `max_months = 6`,
`split_date_range` produces the two sub-ranges
`[(0001-01-01, 0001-07-01), (0001-07-02, 0002-01-02)]`: the final day
0002-01-03 of the requested range lies in no sub-range, so the ranges do
not cover `[start, end]` as the claim states. -/
theorem C1_coverage_counterexample :
    (Date.mk 1 1 1).valid = true ∧ (Date.mk 2 1 3).valid = true ∧
    (Date.mk 1 1 1).toOrd + 365 < (Date.mk 2 1 3).toOrd ∧
    split_date_range ⟨1, 1, 1⟩ ⟨2, 1, 3⟩ 6
      = [(⟨1, 1, 1⟩, ⟨1, 7, 1⟩), (⟨1, 7, 2⟩, ⟨2, 1, 2⟩)] ∧
    (∀ p ∈ split_date_range ⟨1, 1, 1⟩ ⟨2, 1, 3⟩ 6,
      ¬ (p.1.toOrd ≤ (Date.mk 2 1 3).toOrd ∧ (Date.mk 2 1 3).toOrd ≤ p.2.toOrd)) := by
  decide

/-- C1 (amended): for every valid pair with end − start > 365 days and
`max_months = 6`, when the splitting loop completes without a date
arithmetic exception (`splitGo … = some l`; otherwise the unsplit fallback
is returned, see `C10_split_fallback`), the returned sub-ranges start at
`start`, are contiguous (end of one plus one day is the start of the next),
non-overlapping, each spans at most `max_months` calendar months, and cover
every day from `start` up to the last produced end date — which is either
`end` itself or, when a sub-range boundary falls exactly on `end − 1`,
the day `end − 1`, in which case the final day `end` is left uncovered. -/
theorem C1_split_ranges_amended (s e : Date) (l : List (Date × Date))
    (hs : s.valid = true) (he : e.valid = true)
    (hspan : s.toOrd + 365 < e.toOrd)
    (hl : splitGo e 6 (e.toOrd + 1) s = some l) :
    split_date_range s e 6 = l ∧
    (∃ b rest, l = (s, b) :: rest) ∧
    Contiguous l ∧
    (∀ p ∈ l, p.1.toOrd ≤ p.2.toOrd ∧ spanOk 6 p) ∧
    (∀ n, s.toOrd ≤ n → n ≤ lastEndOrd l →
      ∃ p ∈ l, p.1.toOrd ≤ n ∧ n ≤ p.2.toOrd) ∧
    (∀ p ∈ l, ∀ q ∈ l, p ≠ q → p.2.toOrd < q.1.toOrd ∨ q.2.toOrd < p.1.toOrd) ∧
    e.toOrd - 1 ≤ lastEndOrd l ∧ lastEndOrd l ≤ e.toOrd := by
  have hg : GoodList 6 e s l := splitGo_good 6 e he _ s l hs hl
  have hne : l ≠ [] := by
    intro h0
    subst h0
    have : e.toOrd ≤ s.toOrd := hg
    omega
  refine ⟨?_, ?_, GoodList.contiguous hg, ?_, GoodList.covers hs hg,
    GoodList.pairwise_disjoint hg, (GoodList.lastEnd_bounds hg hne).1,
    (GoodList.lastEnd_bounds hg hne).2⟩
  · unfold split_date_range
    rw [if_pos (by rw [hs, he]; rfl), hl]
  · cases l with
    | nil => exact absurd rfl hne
    | cons a rest =>
      obtain ⟨ha1, hrest⟩ := hg
      exact ⟨a.2, rest, by rw [← ha1]⟩
  · intro p hp
    have h := GoodList.mem_props hg p hp
    exact ⟨h.2.2.1, h.2.2.2.2⟩

/-- Witness for `C1_split_ranges_amended` at the concrete pair
0001-01-01 .. 0002-01-03. -/
theorem C1_split_ranges_amended_witness :
    splitGo ⟨2, 1, 3⟩ 6 ((Date.mk 2 1 3).toOrd + 1) ⟨1, 1, 1⟩
      = some [(⟨1, 1, 1⟩, ⟨1, 7, 1⟩), (⟨1, 7, 2⟩, ⟨2, 1, 2⟩)] ∧
    Contiguous [((⟨1, 1, 1⟩ : Date), (⟨1, 7, 1⟩ : Date)), (⟨1, 7, 2⟩, ⟨2, 1, 2⟩)] :=
  ⟨by decide,
   (C1_split_ranges_amended ⟨1, 1, 1⟩ ⟨2, 1, 3⟩
      [(⟨1, 1, 1⟩, ⟨1, 7, 1⟩), (⟨1, 7, 2⟩, ⟨2, 1, 2⟩)]
      (by decide) (by decide) (by decide) (by decide)).2.2.1⟩

/-- C10: `split_date_range` never propagates a failure: whenever date
parsing fails (an invalid input date) or the month arithmetic raises
(`splitGo` reports an exception), the function returns the single-element
list holding the original unsplit range. -/
theorem C10_split_fallback (s e : Date) (k : Nat)
    (h : s.valid = false ∨ e.valid = false ∨ splitGo e k (e.toOrd + 1) s = none) :
    split_date_range s e k = [(s, e)] := by
  unfold split_date_range
  rcases h with h | h | h
  · rw [if_neg (by rw [h]; simp)]
  · rw [if_neg (by rw [h]; simp)]
  · by_cases hv : (s.valid && e.valid) = true
    · rw [if_pos hv, h]
    · rw [if_neg hv]

/-- Witness for `C10_split_fallback`: the start day 31 (0004-08-31) does
not exist in the month reached by adding 6 months (February), so the month
arithmetic fails and the original range is returned unsplit. -/
theorem C10_split_fallback_witness :
    splitGo ⟨6, 1, 1⟩ 6 ((Date.mk 6 1 1).toOrd + 1) ⟨4, 8, 31⟩ = none ∧
    split_date_range ⟨4, 8, 31⟩ ⟨6, 1, 1⟩ 6 = [(⟨4, 8, 31⟩, ⟨6, 1, 1⟩)] :=
  ⟨by decide,
   C10_split_fallback ⟨4, 8, 31⟩ ⟨6, 1, 1⟩ 6 (Or.inr (Or.inr (by decide)))⟩

/-! ## String utilities (Python `in`, `lower`, truthiness) -/

/-- Does `needle` occur at the start of `hay`? -/
def charsMatch : List Char → List Char → Bool
  | [], _ => true
  | _ :: _, [] => false
  | a :: as, b :: bs => a == b && charsMatch as bs

/-- Does `needle` occur anywhere in `hay`?  Models Python `needle in hay`. -/
def subSearch (needle : List Char) : List Char → Bool
  | [] => charsMatch needle []
  | c :: cs => charsMatch needle (c :: cs) || subSearch needle cs

/-- Python `needle in hay` on strings. -/
def strHas (hay needle : String) : Bool := subSearch needle.data hay.data

/-- Lower-case a single character (ASCII range). -/
def asciiLower (c : Char) : Char :=
  if 'A' ≤ c && c ≤ 'Z' then Char.ofNat (c.toNat + 32) else c

/-- Python `str.lower()` (ASCII case folding; the source only lower-cases
ASCII keywords and Korean text, which has no case). -/
def lowerStr (s : String) : String := ⟨s.data.map asciiLower⟩

/-- Python truthiness of an optional string attribute (`None` and the empty
string are falsy). -/
def truthy : Option String → Bool
  | none => false
  | some s => !s.data.isEmpty

/-! ## Title classification: `KRXKindSeleniumScraper._analyze_title` -/

/-- Result of `_analyze_title`. -/
structure TitleAnalysis where
  is_redesignation : Bool
  is_preferred_stock : Bool
  designation_type : String
  deriving DecidableEq, Repr

/-- Model of `KRXKindSeleniumScraper._analyze_title(title)`. -/
def analyze_title (title : String) : TitleAnalysis :=
  let is_redes := strHas title "재지정" || strHas title "재선정" || strHas title "재대상"
  let low := lowerStr title
  let is_pref := strHas low "우선주" || strHas low "우선株" || strHas low "preferred"
  let dtype :=
    if strHas title "투자경고" then
      if strHas title "지정" && !strHas title "해제" then "designation"
      else if strHas title "해제" then "cancellation"
      else "other"
    else "unknown"
  ⟨is_redes, is_pref, dtype⟩

/-! ## Disclosure records and deduplication -/

/-- One extracted row, as assembled in `extract_page_data`. -/
structure DisclosureRecord where
  row_num : String
  datetime : String
  company_name : String
  title : String
  submitter : String
  disclosure_link : Option String
  is_redesignation : Bool
  is_preferred_stock : Bool
  designation_type : String
  deriving DecidableEq, Repr

/-- Assembly of the `data_item` dictionary from the extracted fields. -/
def buildRecord (rn dt cn title sub : String) (link : Option String) :
    DisclosureRecord :=
  let a := analyze_title title
  ⟨rn, dt, cn, title, sub, link, a.is_redesignation, a.is_preferred_stock,
    a.designation_type⟩

/-- The pandas `drop_duplicates` subset key `['datetime', 'company_name',
'title']`. -/
def dedupKey (r : DisclosureRecord) : String × String × String :=
  (r.datetime, r.company_name, r.title)

def dedupGo (seen : List (String × String × String)) :
    List DisclosureRecord → List DisclosureRecord
  | [] => []
  | r :: rs =>
    if dedupKey r ∈ seen then dedupGo seen rs
    else r :: dedupGo (dedupKey r :: seen) rs

/-- Model of `df.drop_duplicates(subset=['datetime', 'company_name', 'title'])`:
keeps the first row of each key, in order. -/
def drop_duplicates (l : List DisclosureRecord) : List DisclosureRecord :=
  dedupGo [] l

/-- C6: the title classifier marks a title containing the warning keyword
and the designation keyword but not the release keyword as a designation,
a title containing the warning keyword and the release keyword as a
cancellation; in particular "투자경고종목 지정 해제" is classified as a
cancellation, and any title containing "재지정" is a re-designation. -/
theorem C6_title_classification (t : String) :
    ((strHas t "투자경고" && (strHas t "지정" && !strHas t "해제")) = true →
      (analyze_title t).designation_type = "designation") ∧
    ((strHas t "투자경고" && strHas t "해제") = true →
      (analyze_title t).designation_type = "cancellation") ∧
    (strHas t "재지정" = true → (analyze_title t).is_redesignation = true) ∧
    (analyze_title "투자경고종목 지정 해제").designation_type = "cancellation" := by
  refine ⟨?_, ?_, ?_, by decide⟩
  · intro h
    simp only [Bool.and_eq_true, Bool.not_eq_true'] at h
    obtain ⟨h1, h2, h3⟩ := h
    simp [analyze_title, h1, h2, h3]
  · intro h
    simp only [Bool.and_eq_true] at h
    obtain ⟨h1, h2⟩ := h
    simp [analyze_title, h1, h2]
  · intro h
    simp [analyze_title, h]

/-- Witness for `C6_title_classification` at concrete titles. -/
theorem C6_title_classification_witness :
    (analyze_title "투자경고 지정").designation_type = "designation" ∧
    (analyze_title "재지정 투자경고 해제").designation_type = "cancellation" ∧
    (analyze_title "재지정 투자경고 해제").is_redesignation = true :=
  ⟨(C6_title_classification "투자경고 지정").1 (by decide),
   (C6_title_classification "재지정 투자경고 해제").2.1 (by decide),
   (C6_title_classification "재지정 투자경고 해제").2.2.1 (by decide)⟩

/-- The two rows of the C4 scenario, as `extract_page_data` assembles
them. -/
def c4RowEarly : DisclosureRecord :=
  buildRecord "1" "08:00:00" "A Corp" "투자경고종목 지정" "X" none

def c4RowLate : DisclosureRecord :=
  buildRecord "2" "09:00:00" "A Corp" "투자경고종목 지정" "X" none

/-- C4 (counterexample): the deduplication key is (datetime, company_name,
title), and the two scenario rows have different datetimes ("08:00:00" vs
"09:00:00"), so dedup keeps both rows; the claimed collapse to a single
record does not happen. -/
theorem C4_dedup_counterexample :
    (drop_duplicates [c4RowEarly, c4RowLate]).length = 2 := by decide

/-- C4 (amended): dedup on the key (datetime, company_name, title) leaves
both scenario rows in place because their datetimes differ, and each of
the two surviving records has designation_type = "designation"; two rows
agreeing also on the datetime would be collapsed to one record. -/
theorem C4_dedup_amended :
    drop_duplicates [c4RowEarly, c4RowLate] = [c4RowEarly, c4RowLate] ∧
    c4RowEarly.designation_type = "designation" ∧
    c4RowLate.designation_type = "designation" ∧
    drop_duplicates
        [c4RowEarly, buildRecord "2" "08:00:00" "A Corp" "투자경고종목 지정" "X" none]
      = [c4RowEarly] := by
  decide

/-! ## Detail-link extraction: `KRXKindSeleniumScraper._extract_disclosure_link` -/

/-- Python regex `\s` on ASCII input. -/
def isPySpace (c : Char) : Bool :=
  c == ' ' || c == '\t' || c == '\n' || c == '\r' || c == '\x0b' || c == '\x0c'

/-- Greedy `\s*`. -/
def dropSpaces : List Char → List Char
  | [] => []
  | c :: cs => if isPySpace c then dropSpaces cs else c :: cs

/-- Match a literal regex fragment, returning the remainder. -/
def stripLit : List Char → List Char → Option (List Char)
  | [], rest => some rest
  | _ :: _, [] => none
  | a :: as, b :: bs => if a == b then stripLit as bs else none

/-- The regex group `([^']*)` followed by the literal `'`: the characters
up to the next single quote, and the remainder after that quote. -/
def takeToQuote : List Char → Option (List Char × List Char)
  | [] => none
  | c :: cs =>
    if c == '\'' then some ([], cs)
    else
      match takeToQuote cs with
      | none => none
      | some (g, rest) => some (c :: g, rest)

/-- The regex fragment `[^&]*`: the maximal run of non-`&` characters and
the remainder (which starts with `&` if nonempty). -/
def takeToAmp : List Char → List Char × List Char
  | [] => ([], [])
  | c :: cs =>
    if c == '&' then ([], c :: cs)
    else
      let p := takeToAmp cs
      (c :: p.1, p.2)

/-- One attempt of the pattern
`openDisclsViewer\('([^']*)',\s*'([^']*)',\s*'([^']*)'` at the current
position. -/
def matchOpenAt (cs : List Char) : Option (String × String × String) :=
  match stripLit "openDisclsViewer('".data cs with
  | none => none
  | some r1 =>
    match takeToQuote r1 with
    | none => none
    | some (g1, r2) =>
      match stripLit ",".data r2 with
      | none => none
      | some r3 =>
        match stripLit "'".data (dropSpaces r3) with
        | none => none
        | some r4 =>
          match takeToQuote r4 with
          | none => none
          | some (g2, r5) =>
            match stripLit ",".data r5 with
            | none => none
            | some r6 =>
              match stripLit "'".data (dropSpaces r6) with
              | none => none
              | some r7 =>
                match takeToQuote r7 with
                | none => none
                | some (g3, _) => some (⟨g1⟩, ⟨g2⟩, ⟨g3⟩)

/-- Scan of `re.search` for the `openDisclsViewer` pattern: first matching
position. -/
def searchOpen : List Char → Option (String × String × String)
  | [] => none
  | c :: cs =>
    match matchOpenAt (c :: cs) with
    | some g => some g
    | none => searchOpen cs

/-- One attempt of the pattern
`disclsviewer\.do\?method=search&acptno=([^&]+)&docno=([^&]+)&viewerhost=([^&]+)`
at the current position. -/
def matchHrefAt (cs : List Char) : Option (String × String × String) :=
  match stripLit "disclsviewer.do?method=search&acptno=".data cs with
  | none => none
  | some r1 =>
    let p1 := takeToAmp r1
    if p1.1.isEmpty then none
    else
      match stripLit "&docno=".data p1.2 with
      | none => none
      | some r3 =>
        let p2 := takeToAmp r3
        if p2.1.isEmpty then none
        else
          match stripLit "&viewerhost=".data p2.2 with
          | none => none
          | some r5 =>
            let p3 := takeToAmp r5
            if p3.1.isEmpty then none else some (⟨p1.1⟩, ⟨p2.1⟩, ⟨p3.1⟩)

/-- Scan of `re.search` for the `disclsviewer.do` pattern: first matching
position. -/
def searchHref : List Char → Option (String × String × String)
  | [] => none
  | c :: cs =>
    match matchHrefAt (c :: cs) with
    | some g => some g
    | none => searchHref cs

/-- Value of `self.base_url` of the scraper. -/
def base_url : String := "https://kind.krx.co.kr"

/-- The canonical detail-link URL assembled from the three captured
tokens. -/
def mkViewerLink (a b c : String) : String :=
  base_url ++ "/common/disclsviewer.do?method=search&acptno=" ++ a ++
    "&docno=" ++ b ++ "&viewerhost=" ++ c ++ "&viewerport="

/-- Model of `KRXKindSeleniumScraper._extract_disclosure_link(onclick_text,
href_text)`. -/
def extract_disclosure_link (onclick_text href_text : Option String) :
    Option String :=
  if truthy onclick_text && strHas (onclick_text.getD "") "openDisclsViewer" then
    match searchOpen (onclick_text.getD "").data with
    | some (a, b, c) => some (mkViewerLink a b c)
    | none => none
  else if truthy href_text && strHas (href_text.getD "") "disclsviewer.do" then
    match searchHref (href_text.getD "").data with
    | some (a, b, c) => some (mkViewerLink a b c)
    | none => none
  else none

/-! ### Lemmas for the link-extractor proof -/

theorem charsMatch_append (n rest : List Char) : charsMatch n (n ++ rest) = true := by
  induction n with
  | nil => rfl
  | cons a as ih => simp [charsMatch, ih]

theorem subSearch_of_here {n h : List Char} (hm : charsMatch n h = true) :
    subSearch n h = true := by
  cases h with
  | nil => simpa [subSearch] using hm
  | cons c cs => simp [subSearch, hm]

theorem stripLit_append (lit rest : List Char) : stripLit lit (lit ++ rest) = some rest := by
  induction lit with
  | nil => rfl
  | cons a as ih => simp [stripLit, ih]

theorem takeToQuote_append {g : List Char} (hg : '\'' ∉ g) (rest : List Char) :
    takeToQuote (g ++ '\'' :: rest) = some (g, rest) := by
  induction g with
  | nil => simp [takeToQuote]
  | cons c cs ih =>
    have hc : (c == '\'') = false := by
      simp only [beq_eq_false_iff_ne, ne_eq]
      intro h
      exact hg (h ▸ List.mem_cons_self _ _)
    have hcs : '\'' ∉ cs := fun h => hg (List.mem_cons_of_mem _ h)
    simp [takeToQuote, hc, ih hcs]

theorem stripComma (r : List Char) : stripLit [','] (',' :: r) = some r := rfl

theorem stripQuote (r : List Char) : stripLit ['\''] ('\'' :: r) = some r := rfl

theorem dropSpaces_quote (r : List Char) : dropSpaces ('\'' :: r) = '\'' :: r := rfl

theorem matchOpenAt_shape (A B C post : String)
    (hA : '\'' ∉ A.data) (hB : '\'' ∉ B.data) (hC : '\'' ∉ C.data) :
    matchOpenAt ("openDisclsViewer('" ++ A ++ "','" ++ B ++ "','" ++ C ++ "'" ++ post).data
      = some (A, B, C) := by
  have e1 : ("openDisclsViewer('" ++ A ++ "','" ++ B ++ "','" ++ C ++ "'" ++ post).data
      = "openDisclsViewer('".data ++
          (A.data ++ ('\'' :: ',' :: '\'' ::
            (B.data ++ ('\'' :: ',' :: '\'' ::
              (C.data ++ ('\'' :: post.data)))))) := by
    simp only [String.data_append]
    simp [List.append_assoc]
  unfold matchOpenAt
  rw [e1, stripLit_append]
  simp only [takeToQuote_append hA, takeToQuote_append hB, takeToQuote_append hC,
    stripComma, stripQuote, dropSpaces_quote]
  try rfl

theorem searchOpen_here {cs : List Char} {g : String × String × String}
    (h : matchOpenAt cs = some g) : searchOpen cs = some g := by
  cases cs with
  | nil =>
    rw [show matchOpenAt [] = none from rfl] at h
    exact Option.noConfusion h
  | cons c cs => simp [searchOpen, h]

/-- C8: a click handler of the form `openDisclsViewer('A','B','C'…` (with
quote-free tokens) yields the canonical detail URL built from the three
tokens; an input matching neither the `openDisclsViewer` pattern nor a
`disclsviewer.do` href yields no link. -/
theorem C8_extract_disclosure_link (A B C post : String) (hr : Option String)
    (oc hc : String)
    (hA : '\'' ∉ A.data) (hB : '\'' ∉ B.data) (hC : '\'' ∉ C.data)
    (hno1 : strHas oc "openDisclsViewer" = false)
    (hno2 : strHas hc "disclsviewer.do" = false) :
    extract_disclosure_link
        (some ("openDisclsViewer('" ++ A ++ "','" ++ B ++ "','" ++ C ++ "'" ++ post)) hr
      = some (mkViewerLink A B C) ∧
    extract_disclosure_link (some oc) (some hc) = none := by
  constructor
  · have e0 : ("openDisclsViewer('" ++ A ++ "','" ++ B ++ "','" ++ C ++ "'" ++ post).data
        = "openDisclsViewer".data ++
            ('(' :: '\'' ::
              (A.data ++ ('\'' :: ',' :: '\'' ::
                (B.data ++ ('\'' :: ',' :: '\'' ::
                  (C.data ++ ('\'' :: post.data))))))) := by
      simp only [String.data_append]
      simp [List.append_assoc]
    have ht : truthy (some ("openDisclsViewer('" ++ A ++ "','" ++ B ++ "','" ++ C ++ "'" ++ post)) = true := by
      have h0 : truthy (some ("openDisclsViewer('" ++ A ++ "','" ++ B ++ "','" ++ C ++ "'" ++ post))
          = !("openDisclsViewer('" ++ A ++ "','" ++ B ++ "','" ++ C ++ "'" ++ post).data.isEmpty := rfl
      rw [h0, e0]
      rfl
    have hhas : strHas ("openDisclsViewer('" ++ A ++ "','" ++ B ++ "','" ++ C ++ "'" ++ post)
        "openDisclsViewer" = true := by
      unfold strHas
      rw [e0]
      exact subSearch_of_here (charsMatch_append _ _)
    have hsearch : searchOpen
        ("openDisclsViewer('" ++ A ++ "','" ++ B ++ "','" ++ C ++ "'" ++ post).data
        = some (A, B, C) := searchOpen_here (matchOpenAt_shape A B C post hA hB hC)
    simp only [extract_disclosure_link, Option.getD_some, ht, hhas, Bool.and_self,
      hsearch, if_true]
  · simp [extract_disclosure_link, hno1, hno2]

/-- Witness for `C8_extract_disclosure_link` at the scenario tokens
12345 / 67890 / host1 and at non-matching inputs. -/
theorem C8_extract_disclosure_link_witness :
    extract_disclosure_link
        (some ("openDisclsViewer('" ++ "12345" ++ "','" ++ "67890" ++ "','" ++ "host1" ++ "'" ++ ", 'd')")) none
      = some (mkViewerLink "12345" "67890" "host1") ∧
    extract_disclosure_link (some "javascript:void(0)") (some "https://x/a.do") = none :=
  C8_extract_disclosure_link "12345" "67890" "host1" ", 'd')" none
    "javascript:void(0)" "https://x/a.do"
    (by decide) (by decide) (by decide) (by decide) (by decide)

/-! ## Row extraction layout: `KRXKindSeleniumScraper.extract_page_data` -/

/-- An anchor element inside a title cell, with its text and the two
attributes the extractor reads. -/
structure LinkTag where
  text : String
  onclick : Option String
  href : Option String
  deriving DecidableEq, Repr

/-- One `td` cell: its text and the anchor elements it contains. -/
structure Cell where
  text : String
  links : List LinkTag
  deriving DecidableEq, Repr

/-- Python `str.strip()` on the ASCII whitespace the portal emits. -/
def pyStrip (s : String) : String :=
  ⟨((dropSpaces ((dropSpaces s.data).reverse)).reverse)⟩

/-- Title and detail link from the title cell (source lines 711-720):
the first anchor's text if the cell has anchors, else the plain cell
text; the link is parsed from the first anchor's attributes. -/
def titleFromCell (c : Cell) : String × Option String :=
  match c.links with
  | [] => (pyStrip c.text, none)
  | l :: _ => (pyStrip l.text, extract_disclosure_link l.onclick l.href)

/-- Header labels that disqualify a title (source line 723). -/
def headerLabels : List String := ["공시제목", "제목", "title"]

/-- Shared tail of the per-row extraction: skip conditions and record
assembly (source lines 710-745). -/
def finishRow (rn tt cn : String) (titleCell : Cell) (sub : String) :
    Option DisclosureRecord :=
  if (titleFromCell titleCell).1 == "" || cn == "" ||
      headerLabels.contains (lowerStr (titleFromCell titleCell).1) then none
  else if tt == "" || tt.length < 8 then none
  else some (buildRecord rn tt cn (titleFromCell titleCell).1 sub
    (titleFromCell titleCell).2)

/-- Per-row processing of `extract_page_data` (source lines 676-745):
maps the cell count of row `i` to the normalized field layout, applies the
skip conditions and assembles the record. -/
def processRow (i : Nat) : List Cell → Option DisclosureRecord
  | c0 :: c1 :: c2 :: c3 :: c4 :: _ =>
    finishRow (pyStrip c0.text) (pyStrip c1.text) (pyStrip c2.text) c3 (pyStrip c4.text)
  | [c0, c1, c2, c3] =>
    finishRow (toString (i + 1)) (pyStrip c0.text) (pyStrip c1.text) c2 (pyStrip c3.text)
  | [c0, c1, c2] =>
    finishRow (toString (i + 1)) (pyStrip c0.text) (pyStrip c1.text) c2 ""
  | _ => none

theorem finishRow_fields {rn tt cn : String} {c : Cell} {sub : String}
    {r : DisclosureRecord} (h : finishRow rn tt cn c sub = some r) :
    r.row_num = rn ∧ r.datetime = tt ∧ r.company_name = cn ∧
      r.title = (titleFromCell c).1 ∧ r.disclosure_link = (titleFromCell c).2 ∧
      r.submitter = sub := by
  unfold finishRow at h
  split at h
  · exact Option.noConfusion h
  · split at h
    · exact Option.noConfusion h
    · cases h
      exact ⟨rfl, rfl, rfl, rfl, rfl, rfl⟩

/-- C7: the row extractor maps the cell count to the normalized layout:
with 5 or more cells the record fields come from cells 1-5 in order; with
exactly 4 cells the row number is synthesized from the row index and the
fields come from cells 1-4; with exactly 3 cells the row number is
synthesized, the fields come from cells 1-3 and the submitter is empty;
rows with fewer than 3 cells are skipped. -/
theorem C7_row_layout (i : Nat) (cells : List Cell) :
    (cells.length < 3 → processRow i cells = none) ∧
    (∀ r, processRow i cells = some r →
      (cells.length ≥ 5 → ∃ c0 c1 c2 c3 c4 rest,
        cells = c0 :: c1 :: c2 :: c3 :: c4 :: rest ∧
        r.row_num = pyStrip c0.text ∧ r.datetime = pyStrip c1.text ∧
        r.company_name = pyStrip c2.text ∧ r.title = (titleFromCell c3).1 ∧
        r.disclosure_link = (titleFromCell c3).2 ∧ r.submitter = pyStrip c4.text) ∧
      (cells.length = 4 → ∃ c0 c1 c2 c3, cells = [c0, c1, c2, c3] ∧
        r.row_num = toString (i + 1) ∧ r.datetime = pyStrip c0.text ∧
        r.company_name = pyStrip c1.text ∧ r.title = (titleFromCell c2).1 ∧
        r.disclosure_link = (titleFromCell c2).2 ∧ r.submitter = pyStrip c3.text) ∧
      (cells.length = 3 → ∃ c0 c1 c2, cells = [c0, c1, c2] ∧
        r.row_num = toString (i + 1) ∧ r.datetime = pyStrip c0.text ∧
        r.company_name = pyStrip c1.text ∧ r.title = (titleFromCell c2).1 ∧
        r.disclosure_link = (titleFromCell c2).2 ∧ r.submitter = "")) := by
  match cells with
  | [] => exact ⟨fun _ => rfl, fun r hr => Option.noConfusion hr⟩
  | [c0] => exact ⟨fun _ => rfl, fun r hr => Option.noConfusion hr⟩
  | [c0, c1] => exact ⟨fun _ => rfl, fun r hr => Option.noConfusion hr⟩
  | [c0, c1, c2] =>
    refine ⟨fun h => by simp at h, fun r hr => ⟨fun h => by simp at h,
      fun h => by simp at h, fun _ => ?_⟩⟩
    obtain ⟨h1, h2, h3, h4, h5, h6⟩ := finishRow_fields hr
    exact ⟨c0, c1, c2, rfl, h1, h2, h3, h4, h5, h6⟩
  | [c0, c1, c2, c3] =>
    refine ⟨fun h => by simp at h, fun r hr => ⟨fun h => by simp at h,
      fun _ => ?_, fun h => by simp at h⟩⟩
    obtain ⟨h1, h2, h3, h4, h5, h6⟩ := finishRow_fields hr
    exact ⟨c0, c1, c2, c3, rfl, h1, h2, h3, h4, h5, h6⟩
  | c0 :: c1 :: c2 :: c3 :: c4 :: rest =>
    refine ⟨fun h => by simp at h; omega, fun r hr => ⟨fun _ => ?_,
      fun h => by simp at h, fun h => by simp at h⟩⟩
    obtain ⟨h1, h2, h3, h4, h5, h6⟩ := finishRow_fields hr
    exact ⟨c0, c1, c2, c3, c4, rest, rfl, h1, h2, h3, h4, h5, h6⟩

/-- Witness for `C7_row_layout`: a 5-cell row produces the record laid out
from cells 1-5, and a 1-cell row is skipped. -/
theorem C7_row_layout_witness :
    processRow 0 [Cell.mk "x" []] = none ∧
    (∃ c0 c1 c2 c3 c4 rest,
      [Cell.mk "1" [], Cell.mk "2020-01-02 09:00" [], Cell.mk "A Corp" [],
        Cell.mk "투자경고종목 지정" [], Cell.mk "X" []]
        = c0 :: c1 :: c2 :: c3 :: c4 :: rest ∧
      (buildRecord "1" "2020-01-02 09:00" "A Corp" "투자경고종목 지정" "X" none).row_num
        = pyStrip c0.text ∧
      (buildRecord "1" "2020-01-02 09:00" "A Corp" "투자경고종목 지정" "X" none).datetime
        = pyStrip c1.text ∧
      (buildRecord "1" "2020-01-02 09:00" "A Corp" "투자경고종목 지정" "X" none).company_name
        = pyStrip c2.text ∧
      (buildRecord "1" "2020-01-02 09:00" "A Corp" "투자경고종목 지정" "X" none).title
        = (titleFromCell c3).1 ∧
      (buildRecord "1" "2020-01-02 09:00" "A Corp" "투자경고종목 지정" "X" none).disclosure_link
        = (titleFromCell c3).2 ∧
      (buildRecord "1" "2020-01-02 09:00" "A Corp" "투자경고종목 지정" "X" none).submitter
        = pyStrip c4.text) :=
  ⟨(C7_row_layout 0 [Cell.mk "x" []]).1 (by decide),
   ((C7_row_layout 0 [Cell.mk "1" [], Cell.mk "2020-01-02 09:00" [], Cell.mk "A Corp" [],
        Cell.mk "투자경고종목 지정" [], Cell.mk "X" []]).2
      (buildRecord "1" "2020-01-02 09:00" "A Corp" "투자경고종목 지정" "X" none)
      (by decide)).1 (by decide)⟩

/-! ## Pagination: `get_current_page_number` / `navigate_to_next_page` -/

/-- Outcome of one direct "next page" candidate selector (source lines
805-845): whether the bounded wait resolved a clickable element, whether
it was enabled and displayed, as observed for this attempt. -/
structure DirectCand where
  clickable : Bool
  enabled : Bool
  displayed : Bool
  deriving DecidableEq, Repr

/-- One page-link-like element of the fallback scan (source lines
848-896), with the page number parsed from its onclick `goPage(n)` call,
from its href `page=n` parameter, and from its digit-only text (each
`none` when the attribute is missing, falsy, or unparsable). -/
structure LinkCand where
  onclickPage : Option Nat
  hrefPage : Option Nat
  textPage : Option Nat
  deriving DecidableEq, Repr

/-- Oracle environment of one `navigate_to_next_page` call: the page
number derived before any click, the outcomes of the direct candidate
selectors, the scanned page links, and the page number derived by
`get_current_page_number` after the k-th click of this call. -/
structure PageEnv where
  initialPage : Nat
  direct : List DirectCand
  links : List LinkCand
  reads : List Nat

/-- Result of `get_current_page_number` re-derived after the k-th click (defaults
to the source's fallback value 1 when the oracle list is short). -/
def readAfter (env : PageEnv) (k : Nat) : Nat := env.reads.getD k 1

/-- The first loop of `navigate_to_next_page` over the direct candidate
selectors; returns the re-derived page on success, and the number of
clicks consumed. -/
def tryDirect (env : PageEnv) (cur : Nat) : Nat → List DirectCand → Option Nat × Nat
  | k, [] => (none, k)
  | k, c :: cs =>
    if c.clickable && c.enabled && c.displayed then
      if cur < readAfter env k then (some (readAfter env k), k + 1)
      else tryDirect env cur (k + 1) cs
    else tryDirect env cur k cs

/-- One click attempt of the fallback scan: click only when the parsed
page number equals `current + 1`, then re-derive the page number and
require it to have strictly increased. -/
def clickAttempt (env : PageEnv) (cur k : Nat) (field : Option Nat) :
    Option Nat × Nat :=
  if field = some (cur + 1) then
    if cur < readAfter env k then (some (readAfter env k), k + 1)
    else (none, k + 1)
  else (none, k)

/-- The three click attempts the fallback scan makes on a single page
link (onclick `goPage`, href `page=`, digit text), in source order. -/
def tryLinkSteps (env : PageEnv) (cur k : Nat) (l : LinkCand) : Option Nat × Nat :=
  match clickAttempt env cur k l.onclickPage with
  | (some r, k1) => (some r, k1)
  | (none, k1) =>
    match clickAttempt env cur k1 l.hrefPage with
    | (some r, k2) => (some r, k2)
    | (none, k2) => clickAttempt env cur k2 l.textPage

/-- The fallback loop of `navigate_to_next_page` over all page links. -/
def tryLinks (env : PageEnv) (cur : Nat) : Nat → List LinkCand → Option Nat
  | _, [] => none
  | k, l :: ls =>
    match tryLinkSteps env cur k l with
    | (some r, _) => some r
    | (none, k2) => tryLinks env cur k2 ls

/-- Model of `navigate_to_next_page` with the final re-derived page number made
explicit: `some r` means the function returns `True` with the page
number last derived being `r`; `none` means it returns `False`. -/
def navigateAux (env : PageEnv) : Option Nat :=
  match tryDirect env env.initialPage 0 env.direct with
  | (some r, _) => some r
  | (none, k) => tryLinks env env.initialPage k env.links

/-- Model of `KRXKindSeleniumScraper.navigate_to_next_page`: the boolean result. -/
def navigate_to_next_page (env : PageEnv) : Bool := (navigateAux env).isSome

theorem tryDirect_gt (env : PageEnv) (cur : Nat) :
    ∀ k cs r k2, tryDirect env cur k cs = (some r, k2) → cur < r := by
  intro k cs
  induction cs generalizing k with
  | nil => intro r k2 h; simp [tryDirect] at h
  | cons c cs ih =>
    intro r k2 h
    unfold tryDirect at h
    split at h
    · split at h
      · rename_i hlt
        cases h
        exact hlt
      · exact ih (k + 1) r k2 h
    · exact ih k r k2 h

theorem clickAttempt_gt {env : PageEnv} {cur k : Nat} {field : Option Nat}
    {r k2 : Nat} (h : clickAttempt env cur k field = (some r, k2)) : cur < r := by
  unfold clickAttempt at h
  split at h
  · split at h
    · rename_i hlt
      cases h
      exact hlt
    · cases h
  · cases h

theorem tryLinkSteps_gt (env : PageEnv) (cur k : Nat) (l : LinkCand) :
    ∀ r k2, tryLinkSteps env cur k l = (some r, k2) → cur < r := by
  intro r k2 h
  unfold tryLinkSteps at h
  cases h1 : clickAttempt env cur k l.onclickPage with
  | mk o1 k1 =>
    rw [h1] at h
    cases o1 with
    | some r1 =>
      dsimp only at h
      cases h
      exact clickAttempt_gt h1
    | none =>
      dsimp only at h
      cases h2 : clickAttempt env cur k1 l.hrefPage with
      | mk o2 kk2 =>
        rw [h2] at h
        cases o2 with
        | some r2 =>
          dsimp only at h
          cases h
          exact clickAttempt_gt h2
        | none =>
          dsimp only at h
          exact clickAttempt_gt h

theorem tryLinks_gt (env : PageEnv) (cur : Nat) :
    ∀ k ls r, tryLinks env cur k ls = some r → cur < r := by
  intro k ls
  induction ls generalizing k with
  | nil => intro r h; simp [tryLinks] at h
  | cons l ls ih =>
    intro r h
    unfold tryLinks at h
    cases hs : tryLinkSteps env cur k l with
    | mk o kk =>
      rw [hs] at h
      cases o with
      | some r1 =>
        dsimp only at h
        cases h
        exact tryLinkSteps_gt env cur k l _ _ hs
      | none =>
        dsimp only at h
        exact ih _ r h

/-- C2: `navigate_to_next_page` reports success only when the page number
re-derived after the click is strictly greater than the page number
derived before the click; it never reports success with the number
unchanged or decreased. -/
theorem C2_navigate_strict_increase (env : PageEnv)
    (h : navigate_to_next_page env = true) :
    ∃ r, navigateAux env = some r ∧ env.initialPage < r := by
  unfold navigate_to_next_page at h
  cases haux : navigateAux env with
  | none => rw [haux] at h; exact Bool.noConfusion h
  | some r =>
    refine ⟨r, rfl, ?_⟩
    unfold navigateAux at haux
    split at haux <;> rename_i heq
    · cases haux
      exact tryDirect_gt env env.initialPage _ _ _ _ heq
    · exact tryLinks_gt env env.initialPage _ _ _ haux

/-- Witness for `C2_navigate_strict_increase`: one clickable direct
candidate whose click moves the paginator from page 1 to page 2. -/
theorem C2_navigate_strict_increase_witness :
    navigate_to_next_page ⟨1, [⟨true, true, true⟩], [], [2]⟩ = true ∧
    ∃ r, navigateAux ⟨1, [⟨true, true, true⟩], [], [2]⟩ = some r ∧ 1 < r :=
  ⟨by decide, C2_navigate_strict_increase ⟨1, [⟨true, true, true⟩], [], [2]⟩ (by decide)⟩

/-! ## Market filter: `KRXKindSeleniumScraper.select_market_type` -/

/-- Observed outcome of one radio-button candidate selector: whether the
bounded wait resolved a clickable element, whether it was already
selected, and whether it reports selected after the JS click. -/
structure RadioOutcome where
  resolved : Bool
  alreadySelected : Bool
  selectedAfterClick : Bool
  deriving DecidableEq, Repr

/-- The candidate loop of `select_market_type` (source lines 202-236). -/
def select_market_type_go : List RadioOutcome → Bool
  | [] => false
  | o :: os =>
    if o.resolved then
      if !o.alreadySelected then
        if o.selectedAfterClick then true else select_market_type_go os
      else true
    else select_market_type_go os

/-- Model of `KRXKindSeleniumScraper.select_market_type(market_type)`: returns
`True` immediately for the default market and for unknown names, and
otherwise the `success` flag of the candidate loop — which is `False`
when no candidate selector resolves. -/
def select_market_type (market_type : String) (outs : List RadioOutcome) : Bool :=
  if market_type == "전체" then true
  else if !(market_type == "유가증권") && !(market_type == "코스닥") then true
  else select_market_type_go outs

/-! ## The `scrape_period_data` extraction loop -/

/-- Why the extraction loop stopped. -/
inductive StopReason where
  | capExceeded
  | threeEmpty
  | noNextPage
  | ceiling
  deriving DecidableEq, Repr

/-- Oracle environment of the loop: the records extracted by the k-th
`extract_page_data` call and the outcome of the k-th
`navigate_to_next_page` call. -/
structure LoopEnv where
  pageData : Nat → List DisclosureRecord
  navOk : Nat → Bool

/-- Result of the loop: accumulated records, number of pages extracted,
and the stop reason. -/
structure LoopResult where
  records : List DisclosureRecord
  extracts : Nat
  reason : StopReason
  deriving DecidableEq, Repr

/-- Python `if max_pages and page_num > max_pages` (`None` and `0` are
falsy, so neither imposes a cap). -/
def capCheck (maxPages : Option Nat) (pageNum : Nat) : Bool :=
  match maxPages with
  | none => false
  | some m => !(m == 0) && decide (pageNum > m)

/-- The `while True` loop of `scrape_period_data` (source lines 939-979).
The fuel counts down from 100 with `fuel + page_num = 101` throughout, so
running out of fuel is exactly the source's `if page_num > 100: break`
safety ceiling after the increment. -/
def scrapeLoop (env : LoopEnv) (maxPages : Option Nat) :
    Nat → Nat → Nat → Nat → List DisclosureRecord → LoopResult
  | 0, _, _, idx, acc => ⟨acc, idx, .ceiling⟩
  | fuel + 1, pageNum, consecEmpty, idx, acc =>
    if capCheck maxPages pageNum then ⟨acc, idx, .capExceeded⟩
    else
      if (env.pageData idx).isEmpty then
        if consecEmpty + 1 ≥ 3 then ⟨acc, idx + 1, .threeEmpty⟩
        else if !(env.navOk idx) then ⟨acc, idx + 1, .noNextPage⟩
        else scrapeLoop env maxPages fuel (pageNum + 1) (consecEmpty + 1) (idx + 1) acc
      else
        if !(env.navOk idx) then ⟨acc ++ env.pageData idx, idx + 1, .noNextPage⟩
        else scrapeLoop env maxPages fuel (pageNum + 1) 0 (idx + 1) (acc ++ env.pageData idx)

/-- The extraction loop of `scrape_period_data`, started at page 1 with
empty accumulator. -/
def scrape_period_loop (env : LoopEnv) (maxPages : Option Nat) : LoopResult :=
  scrapeLoop env maxPages 100 1 0 0 []

/-- Environment of one `scrape_period_data` run: outcomes of the form
configuration steps, then the loop oracle. -/
structure PeriodEnv where
  navPageOk : Bool
  dateOk : Bool
  marketOutcomes : List RadioOutcome
  typesOk : Bool
  searchOk : Bool
  loopEnv : LoopEnv

/-- Model of `KRXKindSeleniumScraper.scrape_period_data` (source lines 906-987):
each failing form step returns the empty list, then the extraction loop
runs. -/
def scrape_period_data (env : PeriodEnv) (marketType : String)
    (maxPages : Option Nat) : List DisclosureRecord :=
  if !env.navPageOk then []
  else if !env.dateOk then []
  else if !(select_market_type marketType env.marketOutcomes) then []
  else if !env.typesOk then []
  else if !env.searchOk then []
  else (scrape_period_loop env.loopEnv maxPages).records

/-- Four unresolved radio candidates: no selector for the market radio
button can be located. -/
def c3Outcomes : List RadioOutcome :=
  [⟨false, false, false⟩, ⟨false, false, false⟩,
   ⟨false, false, false⟩, ⟨false, false, false⟩]

/-- A loop oracle with data available on every page and a terminal
paginator. -/
def c3LoopEnv : LoopEnv := ⟨fun _ => [c4RowEarly], fun _ => false⟩

/-- C3: when `select_market_type` with the non-default market "유가증권"
fails to resolve its radio control by any candidate selector, it returns
`False`, and `scrape_period_data` then aborts the sub-range with an empty
result — even though the same run with the collection loop reached would
have produced records.  This contradicts the non-fatal fallback announced
by the function's own log message ("전체 시장으로 진행", proceed with all
markets). -/
theorem C3_market_failure_aborts :
    select_market_type "유가증권" c3Outcomes = false ∧
    scrape_period_data ⟨true, true, c3Outcomes, true, true, c3LoopEnv⟩ "유가증권" none = [] ∧
    (scrape_period_loop c3LoopEnv none).records ≠ [] := by
  refine ⟨by decide, by decide, ?_⟩
  decide

theorem capCheck_true_spec {mp : Option Nat} {p : Nat} (h : capCheck mp p = true) :
    ∃ m, mp = some m ∧ m ≠ 0 ∧ m < p := by
  cases mp with
  | none => simp [capCheck] at h
  | some m =>
    unfold capCheck at h
    simp only [Bool.and_eq_true, Bool.not_eq_true', beq_eq_false_iff_ne, ne_eq,
      decide_eq_true_eq] at h
    exact ⟨m, rfl, h.1, h.2⟩

theorem capCheck_false_le {mp : Option Nat} {m p : Nat} (h : capCheck mp p = false)
    (hm : mp = some m) (h0 : m ≠ 0) : p ≤ m := by
  subst hm
  by_cases hpm : p ≤ m
  · exact hpm
  · exfalso
    have h1 : (m == 0) = false := by simp [h0]
    have h2 : decide (p > m) = true := by simp only [decide_eq_true_eq]; omega
    have : capCheck (some m) p = true := by
      show (!(m == 0) && decide (p > m)) = true
      rw [h1, h2]
      rfl
    rw [this] at h
    exact Bool.noConfusion h

/-- Invariant of the extraction loop, proved along the fuel: the page,
extraction and emptiness counters stay in lockstep, and each stop reason
is justified by its stop condition. -/
theorem scrapeLoop_spec (env : LoopEnv) (mp : Option Nat) :
    ∀ fuel pageNum consec idx acc,
      fuel + pageNum = 101 →
      idx + 1 = pageNum →
      consec ≤ 2 →
      consec ≤ idx →
      (∀ j, j < consec → env.pageData (idx - 1 - j) = []) →
      (∀ m, mp = some m → m ≠ 0 → pageNum ≤ m + 1) →
      (scrapeLoop env mp fuel pageNum consec idx acc).extracts ≤ 100 ∧
      (∀ m, mp = some m → m ≠ 0 →
        (scrapeLoop env mp fuel pageNum consec idx acc).extracts ≤ m) ∧
      ((scrapeLoop env mp fuel pageNum consec idx acc).reason = StopReason.ceiling →
        (scrapeLoop env mp fuel pageNum consec idx acc).extracts = 100) ∧
      ((scrapeLoop env mp fuel pageNum consec idx acc).reason = StopReason.capExceeded →
        ∃ m, mp = some m ∧ m ≠ 0 ∧
          (scrapeLoop env mp fuel pageNum consec idx acc).extracts = m) ∧
      ((scrapeLoop env mp fuel pageNum consec idx acc).reason = StopReason.noNextPage →
        env.navOk ((scrapeLoop env mp fuel pageNum consec idx acc).extracts - 1) = false) ∧
      ((scrapeLoop env mp fuel pageNum consec idx acc).reason = StopReason.threeEmpty →
        3 ≤ (scrapeLoop env mp fuel pageNum consec idx acc).extracts ∧
        ∀ j, j < 3 →
          env.pageData ((scrapeLoop env mp fuel pageNum consec idx acc).extracts - 1 - j) = []) := by
  intro fuel
  induction fuel with
  | zero =>
    intro pageNum consec idx acc h1 h2 h3 h4 h5 h6
    simp only [scrapeLoop]
    refine ⟨by omega, ?_, fun _ => by omega, fun hcon => absurd hcon (by decide),
      fun hcon => absurd hcon (by decide), fun hcon => absurd hcon (by decide)⟩
    intro m hm h0
    have := h6 m hm h0
    omega
  | succ fuel ih =>
    intro pageNum consec idx acc h1 h2 h3 h4 h5 h6
    rw [scrapeLoop]
    cases hc : capCheck mp pageNum with
    | true =>
      rw [if_pos rfl]
      dsimp only
      obtain ⟨m, hm, h0, hgt⟩ := capCheck_true_spec hc
      have hle := h6 m hm h0
      refine ⟨by omega, ?_, fun hcon => absurd hcon (by decide), ?_,
        fun hcon => absurd hcon (by decide), fun hcon => absurd hcon (by decide)⟩
      · intro m2 hm2 h02
        rw [hm] at hm2
        cases hm2
        omega
      · intro _
        exact ⟨m, hm, h0, by omega⟩
    | false =>
      rw [if_neg Bool.false_ne_true]
      by_cases hpd : ((env.pageData idx).isEmpty = true)
      · rw [if_pos hpd]
        have hpdnil : env.pageData idx = [] := by
          cases hval : env.pageData idx with
          | nil => rfl
          | cons a as => rw [hval] at hpd; exact Bool.noConfusion hpd
        by_cases h3e : consec + 1 ≥ 3
        · rw [if_pos h3e]
          dsimp only
          have hc2 : consec = 2 := by omega
          refine ⟨by omega, ?_, fun hcon => absurd hcon (by decide), fun hcon => absurd hcon (by decide),
            fun hcon => absurd hcon (by decide), ?_⟩
          · intro m hm h0
            have := capCheck_false_le hc hm h0
            omega
          · intro _
            refine ⟨by omega, ?_⟩
            intro j hj
            by_cases hj0 : j = 0
            · subst hj0
              have he : idx + 1 - 1 - 0 = idx := by omega
              rw [he]
              exact hpdnil
            · have he : idx + 1 - 1 - j = idx - 1 - (j - 1) := by omega
              rw [he]
              exact h5 (j - 1) (by omega)
        · rw [if_neg h3e]
          cases hnv : env.navOk idx with
          | false =>
            rw [if_pos (by decide : (!false) = true)]
            dsimp only
            refine ⟨by omega, ?_, fun hcon => absurd hcon (by decide), fun hcon => absurd hcon (by decide),
              ?_, fun hcon => absurd hcon (by decide)⟩
            · intro m hm h0
              have := capCheck_false_le hc hm h0
              omega
            · intro _
              have he : idx + 1 - 1 = idx := by omega
              rw [he]
              exact hnv
          | true =>
            rw [if_neg (by decide)]
            refine ih (pageNum + 1) (consec + 1) (idx + 1) acc (by omega) (by omega)
              (by omega) (by omega) ?_ ?_
            · intro j hj
              by_cases hj0 : j = 0
              · subst hj0
                have he : idx + 1 - 1 - 0 = idx := by omega
                rw [he]
                exact hpdnil
              · have he : idx + 1 - 1 - j = idx - 1 - (j - 1) := by omega
                rw [he]
                exact h5 (j - 1) (by omega)
            · intro m hm h0
              have := capCheck_false_le hc hm h0
              omega
      · rw [if_neg hpd]
        cases hnv : env.navOk idx with
        | false =>
          rw [if_pos (by decide : (!false) = true)]
          dsimp only
          refine ⟨by omega, ?_, fun hcon => absurd hcon (by decide), fun hcon => absurd hcon (by decide),
            ?_, fun hcon => absurd hcon (by decide)⟩
          · intro m hm h0
            have := capCheck_false_le hc hm h0
            omega
          · intro _
            have he : idx + 1 - 1 = idx := by omega
            rw [he]
            exact hnv
        | true =>
          rw [if_neg (by decide)]
          refine ih (pageNum + 1) 0 (idx + 1) (acc ++ env.pageData idx) (by omega)
            (by omega) (by omega) (by omega) ?_ ?_
          · intro j hj
            exact absurd hj (by omega)
          · intro m hm h0
            have := capCheck_false_le hc hm h0
            omega

/-- A loop oracle where every page yields a record and the paginator
always advances. -/
def c5FullEnv : LoopEnv :=
  ⟨fun _ => [⟨"", "", "", "", "", none, false, false, ""⟩], fun _ => true⟩

/-- C5 (counterexample): the caller-supplied cap `max_pages = 0` is falsy
in Python, so the cap check `if max_pages and page_num > max_pages` never
fires: although the page count exceeds the cap from the very first
iteration (1 > 0), the loop keeps extracting until the 100-page safety
ceiling — 100 extractions instead of stopping at the cap check. -/
theorem C5_cap_zero_counterexample :
    capCheck (some 0) 1 = false ∧ 1 > 0 ∧
    (scrape_period_loop c5FullEnv (some 0)).extracts = 100 ∧
    (scrape_period_loop c5FullEnv (some 0)).reason = StopReason.ceiling := by
  refine ⟨by decide, by decide, by decide, by decide⟩

/-- C5 (amended): the extraction loop of `scrape_period_data` always
terminates with at most 100 pages extracted, and it stops exactly at the
first of its stop conditions: (a) a nonzero caller-supplied `max_pages`
cap exceeded (a cap of `None` or `0` is falsy and imposes no limit),
(b) `navigate_to_next_page` reporting no further page, (c) three
consecutive empty page extractions, or (d) the absolute 100-page safety
ceiling; each stop reason is justified by its condition holding at the
stop point. -/
theorem C5_loop_stop_conditions (env : LoopEnv) (mp : Option Nat) :
    (scrape_period_loop env mp).extracts ≤ 100 ∧
    (∀ m, mp = some m → m ≠ 0 → (scrape_period_loop env mp).extracts ≤ m) ∧
    ((scrape_period_loop env mp).reason = StopReason.ceiling →
      (scrape_period_loop env mp).extracts = 100) ∧
    ((scrape_period_loop env mp).reason = StopReason.capExceeded →
      ∃ m, mp = some m ∧ m ≠ 0 ∧ (scrape_period_loop env mp).extracts = m) ∧
    ((scrape_period_loop env mp).reason = StopReason.noNextPage →
      env.navOk ((scrape_period_loop env mp).extracts - 1) = false) ∧
    ((scrape_period_loop env mp).reason = StopReason.threeEmpty →
      3 ≤ (scrape_period_loop env mp).extracts ∧
      ∀ j, j < 3 →
        env.pageData ((scrape_period_loop env mp).extracts - 1 - j) = []) :=
  scrapeLoop_spec env mp 100 1 0 0 [] (by omega) (by omega) (by omega) (by omega)
    (fun j hj => absurd hj (by omega)) (fun m _ _ => by omega)

/-- A loop oracle with no data on any page. -/
def c5EmptyEnv : LoopEnv := ⟨fun _ => [], fun _ => true⟩

/-- Witness for `C5_loop_stop_conditions`: with every page empty the loop
stops by the three-consecutive-empty-pages rule after 3 extractions. -/
theorem C5_loop_stop_conditions_witness :
    (scrape_period_loop c5EmptyEnv none).extracts ≤ 100 ∧
    (scrape_period_loop c5EmptyEnv none).reason = StopReason.threeEmpty ∧
    3 ≤ (scrape_period_loop c5EmptyEnv none).extracts :=
  ⟨(C5_loop_stop_conditions c5EmptyEnv none).1, by decide,
   ((C5_loop_stop_conditions c5EmptyEnv none).2.2.2.2.2 (by decide)).1⟩

/-! ## Session teardown: `close_driver` and the `finally` blocks (C9) -/

/-- Whether the scraper instance currently holds a driver handle
(`self.driver` truthy). -/
structure DriverState where
  driverSet : Bool
  deriving DecidableEq, Repr

/-- Model of `KRXKindSeleniumScraper.close_driver`: calls `driver.quit()` when a
handle is present.  The source does NOT clear `self.driver`, so the
handle stays set afterwards; the returned number counts the
`driver.quit()` attempts made by this call. -/
def close_driver (st : DriverState) : DriverState × Nat :=
  if st.driverSet then (st, 1) else (st, 0)

/-- The session management of `scrape_investment_warning_stocks`:
`try:` create the driver when none is set (setup may fail before a
handle is assigned), run the body (any exception is swallowed by the
`except` clause), `finally: close_driver()`.  Returns the final state
and the number of `driver.quit()` attempts of this invocation. -/
def scrape_invocation_quits (setupFails bodyFails : Bool) (st : DriverState) :
    DriverState × Nat :=
  let st1 := if st.driverSet then st
    else if setupFails then st else { driverSet := true }
  close_driver st1

/-- One per-year session of `scrape_multi_year_data`: a fresh scraper,
`scrape_investment_warning_stocks` (whose own `finally` closes the
driver), then the multi-year loop's own `finally: scraper.close_driver()`.
Returns the total number of `driver.quit()` attempts for the session. -/
def multi_year_session_quits (setupFails bodyFails : Bool) : Nat :=
  let r1 := scrape_invocation_quits setupFails bodyFails ⟨false⟩
  let r2 := close_driver r1.1
  r1.2 + r2.2

/-- C9 (counterexample): in a successful `scrape_multi_year_data`
year-session the driver is quit twice, not exactly once: the inner
`finally` of `scrape_investment_warning_stocks` quits it, `close_driver`
does not clear `self.driver`, and the outer `finally` of
`scrape_multi_year_data` quits it again. -/
theorem C9_double_quit_counterexample : multi_year_session_quits false false = 2 := by
  decide

/-- C9 (amended): whenever a browser session is created (setup does not
fail), `scrape_investment_warning_stocks` performs the teardown exactly
once — on success and on failure paths alike — and never zero times; a
`scrape_multi_year_data` year-session additionally quits the same driver
a second time through its own `finally`, because `close_driver` leaves
`self.driver` set.  When setup fails before a handle exists, no quit is
attempted. -/
theorem C9_teardown_amended (setupFails bodyFails : Bool) :
    (setupFails = false →
      (scrape_invocation_quits setupFails bodyFails ⟨false⟩).2 = 1 ∧
      multi_year_session_quits setupFails bodyFails = 2) ∧
    (setupFails = true →
      (scrape_invocation_quits setupFails bodyFails ⟨false⟩).2 = 0 ∧
      multi_year_session_quits setupFails bodyFails = 0) := by
  constructor
  · intro h
    subst h
    exact ⟨rfl, rfl⟩
  · intro h
    subst h
    exact ⟨rfl, rfl⟩

/-- Witness for `C9_teardown_amended` at a successful session. -/
theorem C9_teardown_amended_witness :
    (scrape_invocation_quits false false ⟨false⟩).2 = 1 ∧
    multi_year_session_quits false false = 2 :=
  (C9_teardown_amended false false).1 rfl

end KindCrawl
